import Mathlib

/-!
Shallow embedding of `lib/department.py`: a single-entity ORM class
(`Department`) with an in-memory identity cache (`Department.all`),
backed by a `departments` table.

Python object references are modelled as indices into an explicit heap
(`State.heap : List Obj`); the class-level dictionary `Department.all`
is an association list from integer id to heap reference; the
`departments` table is a list of rows; the database-assigned primary
key is modelled by a monotone counter `nextId` (the collaborator's
autoincrement).  Each Python method becomes a Lean function threading
the whole `State`.
-/

set_option autoImplicit false

namespace DepartmentORM

/-- The in-memory attribute record of one `Department` instance:
`self.id`, `self.name`, `self.location` (from `Department.__init__`). -/
structure Obj where
  id : Option Nat
  name : String
  location : String
deriving DecidableEq, Repr

/-- One row of the `departments` table: the 3-tuple (id, name, location). -/
structure Row where
  id : Nat
  name : String
  location : String
deriving DecidableEq, Repr

/-- A heap reference: the identity of one Python object. -/
abbrev Ref := Nat

/-- Python-dict lookup on an association list (`Department.all[k]` /
`k in Department.all`). -/
def dictLookup (k : Nat) : List (Nat × Ref) → Option Ref
  | [] => none
  | (k', v) :: rest => if k' = k then some v else dictLookup k rest

/-- Python-dict assignment `d[k] = v`: replaces the binding if the key is
present, appends otherwise. -/
def dictInsert (k : Nat) (v : Ref) : List (Nat × Ref) → List (Nat × Ref)
  | [] => [(k, v)]
  | (k', v') :: rest =>
    if k' = k then (k, v) :: rest else (k', v') :: dictInsert k v rest

/-- Python-dict `d.pop(k, None)`: removes the binding for `k` if present,
no-op otherwise. -/
def dictPop (k : Nat) (d : List (Nat × Ref)) : List (Nat × Ref) :=
  d.filter (fun p => decide (p.1 ≠ k))

/-- The whole program state: the Python heap of `Department` instances,
the `departments` table, the class-level cache `Department.all`, and the
database's autoincrement counter for `INTEGER PRIMARY KEY`. -/
structure State where
  heap : List Obj
  table : List Row
  all : List (Nat × Ref)
  nextId : Nat
deriving DecidableEq, Repr

/-- `SELECT * FROM departments WHERE id = ?` followed by `fetchone()`:
first row whose id matches, if any. -/
def selectById (i : Nat) (t : List Row) : Option Row :=
  t.find? (fun row => decide (row.id = i))

/-- `SELECT * FROM departments WHERE name = ?` followed by `fetchone()`:
first row whose name matches, if any. -/
def selectByName (n : String) (t : List Row) : Option Row :=
  t.find? (fun row => decide (row.name = n))

/-- `Department.save(self)`: insert a new row with the instance's name and
location, set `self.id` from the database-assigned key (`lastrowid`),
and register `self` in `Department.all` under that key.  `r` is the
reference of `self`. -/
def save (r : Ref) (s : State) : State :=
  match s.heap[r]? with
  | none => s
  | some obj =>
    { s with
      table := s.table ++ [⟨s.nextId, obj.name, obj.location⟩]
      heap := s.heap.set r { obj with id := some s.nextId }
      all := dictInsert s.nextId r s.all
      nextId := s.nextId + 1 }

/-- `Department.create(cls, name, location)`: construct a transient
instance (`id=None`) and `save` it; returns the new instance's reference
together with the updated state. -/
def create (name location : String) (s : State) : Ref × State :=
  let r := s.heap.length
  (r, save r { s with heap := s.heap ++ [⟨none, name, location⟩] })

/-- `Department.update(self)`: `UPDATE departments SET name = ?, location = ?
WHERE id = ?`, then refresh the cache entry for `self.id` if (and only
if) that key is already present.  A `None` id matches no row and is
never a cache key. -/
def update (r : Ref) (s : State) : State :=
  match s.heap[r]? with
  | none => s
  | some obj =>
    match obj.id with
    | none => s
    | some i =>
      let table' := s.table.map
        (fun row => if row.id = i then ⟨i, obj.name, obj.location⟩ else row)
      let all' :=
        if (dictLookup i s.all).isSome then dictInsert i r s.all else s.all
      { s with table := table', all := all' }

/-- `Department.delete(self)`: `DELETE FROM departments WHERE id = ?`,
remove the captured id from `Department.all` (`pop(id, None)`), and set
`self.id = None`.  A `None` id matches no row and is never a cache key. -/
def delete (r : Ref) (s : State) : State :=
  match s.heap[r]? with
  | none => s
  | some obj =>
    match obj.id with
    | none => { s with heap := s.heap.set r { obj with id := none } }
    | some i =>
      { s with
        table := s.table.filter (fun row => decide (row.id ≠ i))
        all := dictPop i s.all
        heap := s.heap.set r { obj with id := none } }

/-- `Department.instance_from_db(cls, row)`: the identity-map resolver.
`None` row gives `None`; a cached id gives the cached instance
unchanged; otherwise a fresh instance is allocated from the row's
values, cached, and returned. -/
def instance_from_db (row : Option Row) (s : State) : Option Ref × State :=
  match row with
  | none => (none, s)
  | some row =>
    match dictLookup row.id s.all with
    | some r => (some r, s)
    | none =>
      let r := s.heap.length
      (some r,
        { s with
          heap := s.heap ++ [⟨some row.id, row.name, row.location⟩]
          all := dictInsert row.id r s.all })

/-- State-threaded list comprehension
`[cls.instance_from_db(row) for row in rows]`. -/
def mapRows : List Row → State → List (Option Ref) × State
  | [], s => ([], s)
  | row :: rest, s =>
    let p := instance_from_db (some row) s
    let q := mapRows rest p.2
    (p.1 :: q.1, q.2)

/-- `Department.get_all(cls)`: select every row and map each through
`instance_from_db`. -/
def get_all (s : State) : List (Option Ref) × State :=
  mapRows s.table s

/-- `Department.find_by_id(cls, id)`: return the cached instance
immediately if present, otherwise query by primary key and resolve via
`instance_from_db`. -/
def find_by_id (i : Nat) (s : State) : Option Ref × State :=
  match dictLookup i s.all with
  | some r => (some r, s)
  | none => instance_from_db (selectById i s.table) s

/-- `Department.find_by_name(cls, name)`: always query the database
(no cache short-circuit by name) and resolve the first matching row via
`instance_from_db`. -/
def find_by_name (n : String) (s : State) : Option Ref × State :=
  instance_from_db (selectByName n s.table) s

/-! ### Association-list (Python dict) lemmas -/

@[simp]
theorem dictLookup_insert_self (k : Nat) (v : Ref) (d : List (Nat × Ref)) :
    dictLookup k (dictInsert k v d) = some v := by
  induction d with
  | nil => simp [dictInsert, dictLookup]
  | cons p rest ih =>
    by_cases h : p.1 = k <;> simp [dictInsert, dictLookup, h, ih]

theorem dictLookup_insert_ne {k j : Nat} (v : Ref) (d : List (Nat × Ref))
    (h : k ≠ j) : dictLookup j (dictInsert k v d) = dictLookup j d := by
  induction d with
  | nil => simp [dictInsert, dictLookup, h]
  | cons p rest ih =>
    by_cases hp : p.1 = k
    · simp [dictInsert, dictLookup, hp, h]
    · simp only [dictInsert, if_neg hp, dictLookup]
      by_cases hj : p.1 = j <;> simp [hj, ih]

theorem dictPop_cons_self {k : Nat} {p : Nat × Ref} (rest : List (Nat × Ref))
    (h : p.1 = k) : dictPop k (p :: rest) = dictPop k rest := by
  simp [dictPop, List.filter_cons, h]

theorem dictPop_cons_ne {k : Nat} {p : Nat × Ref} (rest : List (Nat × Ref))
    (h : ¬ p.1 = k) : dictPop k (p :: rest) = p :: dictPop k rest := by
  simp [dictPop, List.filter_cons, h]

@[simp]
theorem dictLookup_pop_self (k : Nat) (d : List (Nat × Ref)) :
    dictLookup k (dictPop k d) = none := by
  induction d with
  | nil => rfl
  | cons p rest ih =>
    by_cases h : p.1 = k
    · rw [dictPop_cons_self rest h, ih]
    · rw [dictPop_cons_ne rest h]
      simp [dictLookup, h, ih]

theorem dictLookup_pop_ne {k j : Nat} (d : List (Nat × Ref)) (h : j ≠ k) :
    dictLookup j (dictPop k d) = dictLookup j d := by
  induction d with
  | nil => rfl
  | cons p rest ih =>
    by_cases hp : p.1 = k
    · have hpj : ¬ p.1 = j := fun e => h (e.symm.trans hp)
      rw [dictPop_cons_self rest hp, ih]
      simp [dictLookup, hpj]
    · rw [dictPop_cons_ne rest hp]
      by_cases hj : p.1 = j <;> simp [dictLookup, hj, ih]

theorem dictPop_of_lookup_none {k : Nat} {d : List (Nat × Ref)}
    (h : dictLookup k d = none) : dictPop k d = d := by
  induction d with
  | nil => rfl
  | cons p rest ih =>
    by_cases hp : p.1 = k
    · simp [dictLookup, hp] at h
    · simp only [dictLookup, if_neg hp] at h
      rw [dictPop_cons_ne rest hp, ih h]

theorem dictLookup_none_ne {k : Nat} {d : List (Nat × Ref)} {j : Nat} {r : Ref}
    (hnone : dictLookup k d = none) (hsome : dictLookup j d = some r) :
    k ≠ j := by
  intro e
  rw [e, hsome] at hnone
  exact Option.noConfusion hnone

/-! ### Table (SELECT / DELETE) lemmas -/

theorem selectById_id {i : Nat} {t : List Row} {row : Row}
    (h : selectById i t = some row) : row.id = i := by
  have := List.find?_some h
  simpa using this

theorem selectById_filter_ne (i : Nat) (t : List Row) :
    selectById i (t.filter (fun row => decide (row.id ≠ i))) = none := by
  induction t with
  | nil => rfl
  | cons row rest ih =>
    by_cases h : row.id = i <;>
      simp_all [selectById, List.filter, List.find?]

/-! ### Concrete states for witnesses -/

/-- A state whose cached instance (id 1 ↦ ref 0) has attributes that
diverge from the table row carrying the same id. -/
def staleState : State :=
  { heap := [⟨some 1, "Sales", "East Wing"⟩]
    table := [⟨1, "Marketing", "West Wing"⟩]
    all := [(1, 0)]
    nextId := 2 }

/-- A fresh state holding one transient (never saved) instance. -/
def transientState : State :=
  { heap := [⟨none, "Engineering", "Building A"⟩]
    table := []
    all := []
    nextId := 1 }

/-- A state holding one persisted, cached instance (id 1 ↦ ref 0). -/
def persistedState : State :=
  { heap := [⟨some 1, "Engineering", "Building A"⟩]
    table := [⟨1, "Engineering", "Building A"⟩]
    all := [(1, 0)]
    nextId := 2 }

/-- A state holding one persisted instance whose id is not in the cache. -/
def uncachedState : State :=
  { heap := [⟨some 2, "HR", "North"⟩]
    table := [⟨2, "HR", "North"⟩]
    all := []
    nextId := 3 }

/-! ### Claim theorems -/

/-- C2: for every row tuple whose id is already cached,
`instance_from_db` returns the cached object unchanged, ignoring the
row's name and location values (which the binder `row` lets diverge
arbitrarily from the cached object's attributes). -/
theorem instance_from_db_cache_authority (s : State) (row : Row) (r : Ref)
    (h : dictLookup row.id s.all = some r) :
    instance_from_db (some row) s = (some r, s) := by
  simp [instance_from_db, h]

/-- C2 witness: the cached instance (name "Sales") is returned for a row
carrying id 1 with different name/location values. -/
theorem instance_from_db_cache_authority_witness :
    dictLookup (Row.id ⟨1, "Marketing", "West Wing"⟩) staleState.all = some 0 ∧
    instance_from_db (some ⟨1, "Marketing", "West Wing"⟩) staleState
      = (some 0, staleState) :=
  ⟨rfl, instance_from_db_cache_authority staleState ⟨1, "Marketing", "West Wing"⟩ 0 rfl⟩

/-- C7: for any cached id, `find_by_id` returns the cached instance with
the state untouched, for every table contents whatsoever (so a row
deleted out-of-band is still returned as existing); only when the id is
absent from the cache does it query the table and resolve the fetched
row via `instance_from_db`. -/
theorem find_by_id_cache_frame (i : Nat) (s : State) :
    (∀ r, dictLookup i s.all = some r →
      ∀ t : List Row,
        find_by_id i { s with table := t } = (some r, { s with table := t })) ∧
    (dictLookup i s.all = none →
      find_by_id i s = instance_from_db (selectById i s.table) s) := by
  constructor
  · intro r h t
    simp [find_by_id, h]
  · intro h
    simp [find_by_id, h]

/-- C7 witness: with the table emptied out-of-band, the cached id 1 is
still found. -/
theorem find_by_id_cache_frame_witness :
    find_by_id 1 { staleState with table := [] }
      = (some 0, { staleState with table := [] }) :=
  (find_by_id_cache_frame 1 staleState).1 0 rfl []

/-- C9: `delete` tolerates the instance's id being absent from the
cache (the removal is then a no-op on the cache), and no cache entry
for any other id is affected. -/
theorem delete_cache_tolerant (r : Ref) (s : State) (obj : Obj) (i : Nat)
    (hobj : s.heap[r]? = some obj) (hid : obj.id = some i) :
    (dictLookup i s.all = none → (delete r s).all = s.all) ∧
    (∀ j, j ≠ i → dictLookup j (delete r s).all = dictLookup j s.all) := by
  constructor
  · intro h
    simp [delete, hobj, hid, dictPop_of_lookup_none h]
  · intro j hj
    simp [delete, hobj, hid, dictLookup_pop_ne _ hj]

/-- C9 witness: deleting an instance whose id 2 is not cached leaves the
cache unchanged, and the lookup of an unrelated id is unaffected. -/
theorem delete_cache_tolerant_witness :
    (delete 0 uncachedState).all = uncachedState.all ∧
    dictLookup 5 (delete 0 uncachedState).all = dictLookup 5 uncachedState.all :=
  ⟨(delete_cache_tolerant 0 uncachedState ⟨some 2, "HR", "North"⟩ 2 rfl rfl).1 rfl,
   (delete_cache_tolerant 0 uncachedState ⟨some 2, "HR", "North"⟩ 2 rfl rfl).2
     5 (by decide)⟩

/-- C4: after `delete` on an instance with persisted id `i`, the
instance's id attribute is `None` and `find_by_id i` returns `None`
(evaluated on the post-delete state, i.e. with no intervening
reinsertion reusing that id). -/
theorem delete_postcondition (r : Ref) (s : State) (obj : Obj) (i : Nat)
    (hobj : s.heap[r]? = some obj) (hid : obj.id = some i) :
    (delete r s).heap[r]? = some { obj with id := none } ∧
    (find_by_id i (delete r s)).1 = none := by
  have hr : r < s.heap.length := by
    rcases List.getElem?_eq_some.mp hobj with ⟨h, _⟩
    exact h
  constructor
  · simp [delete, hobj, hid, List.getElem?_set_self, hr]
  · have hsel := selectById_filter_ne i s.table
    simp only [decide_not] at hsel
    simp [delete, hobj, hid, find_by_id, dictLookup_pop_self, hsel,
      instance_from_db]

/-- C4 witness: deleting the persisted instance with id 1 clears its id
attribute and makes `find_by_id 1` return `None`. -/
theorem delete_postcondition_witness :
    (delete 0 persistedState).heap[0]? = some ⟨none, "Engineering", "Building A"⟩ ∧
    (find_by_id 1 (delete 0 persistedState)).1 = none :=
  delete_postcondition 0 persistedState ⟨some 1, "Engineering", "Building A"⟩ 1 rfl rfl

/-- C6: `update` on an instance with id `i` rewrites every row matching
`i` to the instance's current name and location; if `i` is a cache key
the cache entry is set to this very instance (replacing whatever
reference was stored there), and an id absent from the cache is not
added to it. -/
theorem update_postcondition (r : Ref) (s : State) (obj : Obj) (i : Nat)
    (hobj : s.heap[r]? = some obj) (hid : obj.id = some i) :
    (update r s).table = s.table.map
      (fun row => if row.id = i then ⟨i, obj.name, obj.location⟩ else row) ∧
    (∀ r0, dictLookup i s.all = some r0 →
      dictLookup i (update r s).all = some r) ∧
    (dictLookup i s.all = none → (update r s).all = s.all) := by
  refine ⟨?_, ?_, ?_⟩
  · simp [update, hobj, hid]
  · intro r0 h
    simp [update, hobj, hid, h]
  · intro h
    simp [update, hobj, hid, h]

/-- C6 witness: updating the cached instance (name "Sales") rewrites the
diverged row for id 1 and keeps the cache pointing at the instance. -/
theorem update_postcondition_witness :
    (update 0 staleState).table = [⟨1, "Sales", "East Wing"⟩] ∧
    dictLookup 1 (update 0 staleState).all = some 0 := by
  have h := update_postcondition 0 staleState ⟨some 1, "Sales", "East Wing"⟩ 1 rfl rfl
  exact ⟨by rw [h.1]; rfl, h.2.1 0 rfl⟩

/-- C5: after `save`, the freshly inserted row (with the instance's name
and location) is in the table and was not there before, the instance's
id is the database-assigned key of that row, the cache maps that key to
this very instance, and every row carrying that key matches the
instance's attributes.  `hfresh` is the autoincrement invariant of the
database collaborator. -/
theorem save_postcondition (r : Ref) (s : State) (obj : Obj)
    (hobj : s.heap[r]? = some obj)
    (hfresh : ∀ row ∈ s.table, row.id < s.nextId) :
    (⟨s.nextId, obj.name, obj.location⟩ : Row) ∈ (save r s).table ∧
    (⟨s.nextId, obj.name, obj.location⟩ : Row) ∉ s.table ∧
    (save r s).heap[r]? = some { obj with id := some s.nextId } ∧
    dictLookup s.nextId (save r s).all = some r ∧
    (∀ row ∈ (save r s).table, row.id = s.nextId →
      row.name = obj.name ∧ row.location = obj.location) := by
  have hr : r < s.heap.length := by
    rcases List.getElem?_eq_some.mp hobj with ⟨h, _⟩
    exact h
  refine ⟨?_, ?_, ?_, ?_, ?_⟩
  · simp [save, hobj]
  · intro hmem
    exact absurd (hfresh _ hmem) (Nat.lt_irrefl s.nextId)
  · simp [save, hobj, List.getElem?_set_self, hr]
  · simp [save, hobj]
  · intro row hmem hrid
    have : row ∈ s.table ++ [(⟨s.nextId, obj.name, obj.location⟩ : Row)] := by
      simpa [save, hobj] using hmem
    rcases List.mem_append.mp this with hold | hnew
    · exact absurd (hrid ▸ hfresh row hold) (Nat.lt_irrefl s.nextId)
    · rcases List.mem_singleton.mp hnew with rfl
      exact ⟨rfl, rfl⟩

/-- C5 witness: saving the transient instance inserts row (1,
"Engineering", "Building A") and caches id 1 ↦ ref 0. -/
theorem save_postcondition_witness :
    (⟨1, "Engineering", "Building A"⟩ : Row) ∈ (save 0 transientState).table ∧
    dictLookup 1 (save 0 transientState).all = some 0 := by
  have h := save_postcondition 0 transientState ⟨none, "Engineering", "Building A"⟩
    rfl (by simp [transientState])
  exact ⟨h.1, h.2.2.2.1⟩

/-- C8: a second `save` on an already-persisted instance (id `i`, whose
row and cache entry exist) inserts a duplicate row under the fresh key
`s.nextId ≠ i`, leaves the original row in the table, registers the
instance under the new key while the old cache entry remains, and
repoints the instance's id at the new key. -/
theorem save_duplicate_row (r : Ref) (i : Nat) (s : State) (obj : Obj)
    (hobj : s.heap[r]? = some obj) (_hid : obj.id = some i)
    (hfresh : ∀ row ∈ s.table, row.id < s.nextId)
    (hrow : (⟨i, obj.name, obj.location⟩ : Row) ∈ s.table)
    (hcache : dictLookup i s.all = some r) :
    s.nextId ≠ i ∧
    (⟨s.nextId, obj.name, obj.location⟩ : Row) ∈ (save r s).table ∧
    (⟨i, obj.name, obj.location⟩ : Row) ∈ (save r s).table ∧
    dictLookup s.nextId (save r s).all = some r ∧
    dictLookup i (save r s).all = some r ∧
    (save r s).heap[r]? = some { obj with id := some s.nextId } := by
  have hr : r < s.heap.length := by
    rcases List.getElem?_eq_some.mp hobj with ⟨h, _⟩
    exact h
  have hlt : i < s.nextId := hfresh _ hrow
  have hne : s.nextId ≠ i := Nat.ne_of_gt hlt
  refine ⟨hne, ?_, ?_, ?_, ?_, ?_⟩
  · simp [save, hobj]
  · simp [save, hobj]
    exact Or.inl hrow
  · simp [save, hobj]
  · simp [save, hobj, dictLookup_insert_ne _ _ hne, hcache]
  · simp [save, hobj, List.getElem?_set_self, hr]

/-- C8 witness: a second `save` on the persisted instance of id 1 adds a
duplicate row under the new id 2; both cache entries point at ref 0 and
the instance's id is now 2. -/
theorem save_duplicate_row_witness :
    (2 : Nat) ≠ 1 ∧
    (⟨2, "Engineering", "Building A"⟩ : Row) ∈ (save 0 persistedState).table ∧
    (⟨1, "Engineering", "Building A"⟩ : Row) ∈ (save 0 persistedState).table ∧
    dictLookup 2 (save 0 persistedState).all = some 0 ∧
    dictLookup 1 (save 0 persistedState).all = some 0 ∧
    (save 0 persistedState).heap[0]? = some ⟨some 2, "Engineering", "Building A"⟩ :=
  save_duplicate_row 0 1 persistedState ⟨some 1, "Engineering", "Building A"⟩
    rfl rfl (by simp [persistedState]) (by simp [persistedState]) rfl

/-- C3: `create name location` returns an instance whose name and
location equal the arguments, and `find_by_id` on its assigned id
yields that very instance. -/
theorem create_find_by_id_roundtrip (name location : String) (s : State) :
    ∃ obj : Obj,
      ((create name location s).2).heap[(create name location s).1]? = some obj ∧
      obj.name = name ∧ obj.location = location ∧
      ∃ i : Nat, obj.id = some i ∧
        (find_by_id i (create name location s).2).1
          = some (create name location s).1 := by
  refine ⟨⟨some s.nextId, name, location⟩, ?_, rfl, rfl, s.nextId, rfl, ?_⟩
  · simp [create, save, List.getElem?_concat_length, List.getElem?_set_self]
  · simp [create, save, List.getElem?_concat_length, find_by_id]

/-- C10: `find_by_name` can return an instance whose name differs from
the queried name: the first row matching "Marketing" has id 1, which is
cached under an instance named "Sales", and the cached instance is
returned as-is. -/
theorem find_by_name_returns_mismatched_name :
    (find_by_name "Marketing" staleState).1 = some 0 ∧
    (staleState.heap[0]?).map Obj.name = some "Sales" ∧
    ("Sales" : String) ≠ "Marketing" :=
  ⟨rfl, rfl, by decide⟩

/-- `instance_from_db` never removes or overwrites a cache entry: a
cached binding survives any resolution step. -/
theorem instance_from_db_cache_mono {i : Nat} {r : Ref} (row : Option Row)
    (s : State) (h : dictLookup i s.all = some r) :
    dictLookup i (instance_from_db row s).2.all = some r := by
  match row with
  | none => exact h
  | some row =>
    cases hc : dictLookup row.id s.all with
    | some r' => simpa [instance_from_db, hc] using h
    | none =>
      have hne : row.id ≠ i := dictLookup_none_ne hc h
      simpa [instance_from_db, hc, dictLookup_insert_ne _ _ hne] using h

/-- Resolving a list of rows yields the cached reference at every row
whose id is cached when the traversal starts. -/
theorem mapRows_cached_mem {i : Nat} {r : Ref} (rows : List Row) :
    ∀ s : State, dictLookup i s.all = some r →
      ∀ row ∈ rows, row.id = i → some r ∈ (mapRows rows s).1 := by
  induction rows with
  | nil =>
    intro s _ row hmem _
    exact absurd hmem (List.not_mem_nil row)
  | cons q rest ih =>
    intro s h row hmem hrid
    have hshape : (mapRows (q :: rest) s).1
        = (instance_from_db (some q) s).1
          :: (mapRows rest (instance_from_db (some q) s).2).1 := rfl
    rcases List.mem_cons.mp hmem with he | hm
    · have hq : dictLookup q.id s.all = some r := by
        rw [show q.id = i from he ▸ hrid]
        exact h
      rw [hshape]
      have : (instance_from_db (some q) s).1 = some r := by
        simp [instance_from_db, hq]
      rw [this]
      exact List.mem_cons_self _ _
    · rw [hshape]
      exact List.mem_cons_of_mem _
        (ih _ (instance_from_db_cache_mono (some q) s h) row hm hrid)

/-- C1: two consecutive `find_by_id` calls on the same id agree (with no
intervening delete); and for any cached id, `find_by_id` returns the
cached reference with the state untouched, `instance_from_db` returns
it for every row carrying that id, and `get_all` yields it at every
table row carrying that id. -/
theorem find_by_id_identity_map (i : Nat) (s : State) :
    (find_by_id i (find_by_id i s).2).1 = (find_by_id i s).1 ∧
    ∀ r, dictLookup i s.all = some r →
      find_by_id i s = (some r, s) ∧
      (∀ row : Row, row.id = i → (instance_from_db (some row) s).1 = some r) ∧
      (∀ row ∈ s.table, row.id = i → some r ∈ (get_all s).1) := by
  constructor
  · cases hc : dictLookup i s.all with
    | some r => simp [find_by_id, hc]
    | none =>
      cases hrow : selectById i s.table with
      | none => simp [find_by_id, hc, hrow, instance_from_db]
      | some row =>
        have hrid : row.id = i := selectById_id hrow
        simp [find_by_id, hc, hrow, instance_from_db, hrid,
          dictLookup_insert_self]
  · intro r h
    refine ⟨by simp [find_by_id, h], ?_, ?_⟩
    · intro row hrid
      simp [instance_from_db, hrid, h]
    · intro row hmem hrid
      exact mapRows_cached_mem s.table s h row hmem hrid

/-- C1 witness: on the concrete cached state, both calls return ref 0,
the state is untouched, and `get_all` yields the cached reference. -/
theorem find_by_id_identity_map_witness :
    (find_by_id 1 (find_by_id 1 staleState).2).1 = (find_by_id 1 staleState).1 ∧
    find_by_id 1 staleState = (some 0, staleState) ∧
    some 0 ∈ (get_all staleState).1 :=
  ⟨(find_by_id_identity_map 1 staleState).1,
   ((find_by_id_identity_map 1 staleState).2 0 rfl).1,
   ((find_by_id_identity_map 1 staleState).2 0 rfl).2.2
     ⟨1, "Marketing", "West Wing"⟩ (by simp [staleState]) rfl⟩

end DepartmentORM
